import Mathlib

/-!
Verification of the Papers Past METS/ALTO extraction script
(src/multiprocess_pp_issues_mets_alto_full.py).

Python strings are embedded as `List Char`.  Each regular-expression
substitution used by the script is embedded as an executable left-to-right
scanner that is faithful to `re.sub` semantics (leftmost match, greedy
quantifiers, scanning resumes after the replaced text).  The `$` anchor in
Python also matches just before a single trailing newline; the helpers below
reproduce that.
-/

namespace PapersPast

/-- Python strings are modelled as lists of characters. -/
abbrev Str := List Char

/-- Characters written via code points to keep escapes unambiguous. -/
def bslashC : Char := Char.ofNat 92

/-- The single-quote character. -/
def squoteC : Char := Char.ofNat 39

/-- The double-quote character. -/
def dquoteC : Char := Char.ofNat 34

/-- Newline. -/
def nlC : Char := Char.ofNat 10

/-- Carriage return. -/
def crC : Char := Char.ofNat 13

/-- Horizontal tab. -/
def tabC : Char := Char.ofNat 9

/-- Shorthand turning a Lean string literal into the `List Char` embedding. -/
def lchars (s : String) : Str := s.toList

/-- Whitespace for Python `str.split` and the regex class `\s` (ASCII part;
the Unicode whitespace characters are treated analogously by Python and do
not occur in the inputs considered here). -/
def isPySpace (c : Char) : Bool :=
  c = ' ' || c = tabC || c = nlC || c = crC || c = Char.ofNat 11 || c = Char.ofNat 12

/-- The regex word class `\w` (ASCII part): letters, digits, underscore. -/
def isWordChar (c : Char) : Bool :=
  c.isAlphanum || c = '_'

/-- Python `$` semantics: a pattern anchored with `$` also matches when a
single newline ends the string; stripping it reduces `^pat$` matching on `s`
to full matching on `dollarStrip s`. -/
def dollarStrip (s : Str) : Str :=
  if s.getLast? = some nlC then s.dropLast else s

/-- Full match of `^-{2,}$` (a bare run of two or more hyphens). -/
def pyMatchHyphens2 (s : Str) : Bool :=
  let t := dollarStrip s
  decide (2 ≤ t.length) && t.all (fun c => c = '-')

/-- Full match of the regex `\d+` followed by an optional single quote and
the end anchor (a bare number, optionally trailed by an apostrophe). -/
def pyMatchBareNum (s : Str) : Bool :=
  let t := dollarStrip s
  let d := t.takeWhile Char.isDigit
  let r := t.dropWhile Char.isDigit
  !d.isEmpty && (r.isEmpty || r = [squoteC])

/-- Match of `^-+` at the start of a string (at least one leading hyphen). -/
def startsWithHyphen : Str → Bool
  | [] => false
  | c :: _ => c = '-'

/-- Search for `-{2,}` anywhere in the string (two adjacent hyphens). -/
def containsDoubleHyphen : Str → Bool
  | c :: d :: t => (c = '-' && d = '-') || containsDoubleHyphen (d :: t)
  | _ => false

/-! ### clean_text (source lines 74-111)

Each numbered step below embeds one statement of the Python function, in
order. -/

/-- Step 1 of `clean_text`: the substitution
`re.sub(r'\\([\'"\n\r\t])', lambda m: ' ' if m.group(1) in 'nrt' else m.group(1), text)`.
The character class contains the quote characters and the control characters
newline, carriage return and tab (not the letters n, r, t), so the lambda's
test `m.group(1) in 'nrt'` is translated verbatim: it compares the captured
character against the letters n, r, t. -/
def replaceEscapes : Str → Str
  | [] => []
  | [c] => [c]
  | c :: d :: rest2 =>
    if c = bslashC then
      if d = squoteC || d = dquoteC || d = nlC || d = crC || d = tabC then
        (if d = 'n' || d = 'r' || d = 't' then ' ' else d) :: replaceEscapes rest2
      else
        c :: replaceEscapes (d :: rest2)
    else
      c :: replaceEscapes (d :: rest2)

/-- Decimal digits of a natural number, most significant first
(fuel-driven, structurally recursive; fuel `n+1` always suffices). -/
def natDigitsAux : Nat → Nat → Str
  | 0, _ => []
  | f + 1, n =>
    if n < 10 then [Nat.digitChar n]
    else natDigitsAux f (n / 10) ++ [Nat.digitChar (n % 10)]

/-- Decimal representation of a natural number, as Python `str`/f-strings
produce it. -/
def natRepr (n : Nat) : Str := natDigitsAux (n + 1) n

/-- The marker `f'__HYPHEN_{len(run)}__'` for a protected hyphen run. -/
def hyphenPlaceholder (k : Nat) : Str :=
  lchars "__HYPHEN_" ++ natRepr k ++ lchars "__"

/-- Emit a pending maximal hyphen run: runs of length at least two become the
placeholder (regex `(\-{2,})` is greedy, so it matches maximal runs), shorter
runs are emitted unchanged. -/
def flushHyphens (k : Nat) : Str :=
  if 2 ≤ k then hyphenPlaceholder k else List.replicate k '-'

/-- Scanner for step 2; the accumulator counts pending consecutive hyphens. -/
def protectHyphensAux : Nat → Str → Str
  | k, [] => flushHyphens k
  | k, c :: rest =>
    if c = '-' then protectHyphensAux (k + 1) rest
    else flushHyphens k ++ c :: protectHyphensAux 0 rest

/-- Step 2 of `clean_text`:
`re.sub(r'(\-{2,})', lambda m: f'__HYPHEN_{len(m.group(1))}__', text)`. -/
def protectHyphens (s : Str) : Str := protectHyphensAux 0 s

/-- Step 3 of `clean_text`:
`re.sub(r'(\d+\'?)(\s+)(\-+)', r'\1__NUMHYPH__\3', text)`.
All three groups are greedy and no backtracking can succeed where the greedy
reading fails (a shorter `\d+` is followed by a digit, which matches neither
`\'?` nor `\s+`; a shorter `\s+` is followed by whitespace, not a hyphen), so
a match at a position is exactly: maximal digit run, optional apostrophe,
maximal nonempty whitespace run, maximal nonempty hyphen run.  Scanning
resumes after the matched text; on failure the scanner advances one
character, as `re.sub` tries every position. -/
def protectNumHyphAux : Nat → Str → Str
  | 0, s => s
  | _ + 1, [] => []
  | fuel + 1, c :: rest =>
    if c.isDigit then
      let digits := (c :: rest).takeWhile Char.isDigit
      let after1 := (c :: rest).dropWhile Char.isDigit
      let apos := match after1 with
        | a :: _ => if a = squoteC then [a] else []
        | [] => []
      let after2 := after1.drop apos.length
      let ws := after2.takeWhile isPySpace
      let after3 := after2.dropWhile isPySpace
      let hys := after3.takeWhile (fun d => d = '-')
      let after4 := after3.dropWhile (fun d => d = '-')
      if !ws.isEmpty && !hys.isEmpty then
        digits ++ apos ++ lchars "__NUMHYPH__" ++ hys ++ protectNumHyphAux fuel after4
      else
        c :: protectNumHyphAux fuel rest
    else
      c :: protectNumHyphAux fuel rest

/-- Step 3 of `clean_text` (fuel instantiated so the scan never runs out). -/
def protectNumHyph (s : Str) : Str := protectNumHyphAux s.length s

/-- Python `text.split()`: split on whitespace runs, dropping empty pieces.
The first argument accumulates the current word, reversed. -/
def pySplitAux : Str → Str → List Str
  | [], acc => if acc.isEmpty then [] else [acc.reverse]
  | c :: t, acc =>
    if isPySpace c then
      if acc.isEmpty then pySplitAux t [] else acc.reverse :: pySplitAux t []
    else
      pySplitAux t (c :: acc)

/-- Python `text.split()`. -/
def pySplit (s : Str) : List Str := pySplitAux s []

/-- Step 4 of `clean_text`: `" ".join(text.split())`. -/
def collapseSpaces (s : Str) : Str := List.intercalate [' '] (pySplit s)

/-- Value of a nonempty decimal digit string, as Python `int` reads it. -/
def digitsToNat (ds : Str) : Nat :=
  ds.foldl (fun a c => a * 10 + (c.toNat - 48)) 0

/-- Remove `p` as a prefix of `s`, if present. -/
def stripPrefixL : Str → Str → Option Str
  | [], s => some s
  | _ :: _, [] => none
  | p :: ps, c :: cs => if c = p then stripPrefixL ps cs else none

/-- Parse `__HYPHEN_(\d+)__` at the head of the string.  The digit group is
greedy; a shorter digit group would be followed by a digit, which cannot
match the literal `__`, so only the maximal digit run can succeed. -/
def parseHyphMarker (s : Str) : Option (Nat × Str) :=
  match stripPrefixL (lchars "__HYPHEN_") s with
  | none => none
  | some r =>
    let ds := r.takeWhile Char.isDigit
    let r2 := r.dropWhile Char.isDigit
    if ds.isEmpty then none
    else
      match stripPrefixL (lchars "__") r2 with
      | none => none
      | some r3 => some (digitsToNat ds, r3)

/-- Scanner for step 5 of `clean_text`:
`re.sub(r'__HYPHEN_(\d+)__', lambda m: '-' * int(m.group(1)), text)`. -/
def restoreHyphensAux : Nat → Str → Str
  | 0, s => s
  | _ + 1, [] => []
  | fuel + 1, c :: rest =>
    match parseHyphMarker (c :: rest) with
    | some (k, r) => List.replicate k '-' ++ restoreHyphensAux fuel r
    | none => c :: restoreHyphensAux fuel rest

/-- Step 5 of `clean_text`. -/
def restoreHyphens (s : Str) : Str := restoreHyphensAux s.length s

/-- Scanner for step 6 of `clean_text`:
`re.sub(r'__NUMHYPH__', '-', text)`. -/
def restoreNumHyphAux : Nat → Str → Str
  | 0, s => s
  | _ + 1, [] => []
  | fuel + 1, c :: rest =>
    match stripPrefixL (lchars "__NUMHYPH__") (c :: rest) with
    | some r => '-' :: restoreNumHyphAux fuel r
    | none => c :: restoreNumHyphAux fuel rest

/-- Step 6 of `clean_text`. -/
def restoreNumHyph (s : Str) : Str := restoreNumHyphAux s.length s

/-- Step 7 of `clean_text`:
`re.sub(r'(\d+\'?)-(\-+)', r'\1-\2', text)` — the replacement text equals the
matched text, so each match is re-emitted verbatim and scanning resumes after
it.  Greediness is as in step 3. -/
def fixNumHyphSpacingAux : Nat → Str → Str
  | 0, s => s
  | _ + 1, [] => []
  | fuel + 1, c :: rest =>
    if c.isDigit then
      let digits := (c :: rest).takeWhile Char.isDigit
      let after1 := (c :: rest).dropWhile Char.isDigit
      let apos := match after1 with
        | a :: _ => if a = squoteC then [a] else []
        | [] => []
      let after2 := after1.drop apos.length
      match after2 with
      | h1 :: t1 =>
        if h1 = '-' then
          let hys := t1.takeWhile (fun d => d = '-')
          let after3 := t1.dropWhile (fun d => d = '-')
          if !hys.isEmpty then
            digits ++ apos ++ '-' :: hys ++ fixNumHyphSpacingAux fuel after3
          else
            c :: fixNumHyphSpacingAux fuel rest
        else
          c :: fixNumHyphSpacingAux fuel rest
      | [] => c :: fixNumHyphSpacingAux fuel rest
    else
      c :: fixNumHyphSpacingAux fuel rest

/-- Step 7 of `clean_text`. -/
def fixNumHyphSpacing (s : Str) : Str := fixNumHyphSpacingAux s.length s

/-- The string pipeline of `clean_text` (source lines 94-111), applied once
the input is known to be a string. -/
def clean_text_str (s : Str) : Str :=
  fixNumHyphSpacing (restoreNumHyph (restoreHyphens (collapseSpaces
    (protectNumHyph (protectHyphens (replaceEscapes s))))))

/-- The Python values `clean_text` can receive: a string, `None`, or some
other non-string value (an integer is taken as the representative). -/
inductive PyVal where
  | pstr (s : Str)
  | pnone
  | pint (n : Int)
  deriving DecidableEq

/-- Python `str` of an integer: its decimal representation. -/
def pyIntStr : Int → Str
  | Int.ofNat m => natRepr m
  | Int.negSucc m => '-' :: natRepr (m + 1)

/-- `clean_text` (source lines 74-111): non-string inputs short-circuit as
`"" if text is None else str(text)`; strings run the pipeline. -/
def clean_text : PyVal → Str
  | PyVal.pstr s => clean_text_str s
  | PyVal.pnone => []
  | PyVal.pint n => pyIntStr n

/-! ### process_text_block (source lines 309-394) -/

/-- Result of `float(wc)` guarded by `try/except`: either a parsed numeric
value or a parse failure.  Word-confidence values are only parsed and
stored, never computed with, so rationals represent the floats.  A missing
`WC` attribute defaults to the string `"0"`, i.e. to `ok 0`. -/
inductive WcAttr where
  | ok (q : Rat)
  | bad
  deriving DecidableEq

/-- The word confidence of a token:
`float(wc)` with `except (ValueError, TypeError): 0.0`. -/
def wcValue : WcAttr → Rat
  | WcAttr.ok q => q
  | WcAttr.bad => 0

/-- One ALTO `String` element as `process_text_block` reads it:
`CONTENT`, `SUBS_TYPE` and `SUBS_CONTENT` default to `""` when absent,
`WC` is parsed as a float. -/
structure AltoString where
  content : Str
  subs_type : Str
  subs_content : Str
  wc : WcAttr
  deriving DecidableEq

/-- Case 1 of the loop: `content and re.match(r'^-{2,}$', content)`. -/
def isCase1 (s : AltoString) : Bool :=
  !s.content.isEmpty && pyMatchHyphens2 s.content

/-- The lookahead test of case 2 on the following token:
`next_content and (re.match(r'^-+', next_content) or next_subs_type == "HypPart2" and re.match(r'^-+', next_content))`
(Python `and` binds tighter than `or`). -/
def case2Next (next : AltoString) : Bool :=
  !next.content.isEmpty &&
    (startsWithHyphen next.content ||
      (next.subs_type = lchars "HypPart2" && startsWithHyphen next.content))

/-- The merge guard of case 3:
`subs_content and not re.search(r'-{2,}', subs_content) and not (next_content and re.match(r'^-{2,}$', next_content))`. -/
def mergeGuard (s next : AltoString) : Bool :=
  !s.subs_content.isEmpty && !containsDoubleHyphen s.subs_content &&
    !(!next.content.isEmpty && pyMatchHyphens2 next.content)

/-- The token loop of `process_text_block`, producing the emitted words and
the collected word confidences.  The Python loop walks an index with a
`skip_next` flag; consuming the merged second half corresponds to recursing
on `rest2`, and every other branch recurses on the remaining tokens.  For a
final token, cases 2 and 3 are disabled by `i + 1 < len(block_strings)` and
cases 1 and 4 both emit the literal content. -/
def processTokens : List AltoString → List Str × List Rat
  | [] => ([], [])
  | [s] => ([s.content], [wcValue s.wc])
  | s :: next :: rest2 =>
    if isCase1 s then
      let r := processTokens (next :: rest2)
      (s.content :: r.1, wcValue s.wc :: r.2)
    else if pyMatchBareNum s.content && s.subs_type = lchars "HypPart1" && case2Next next then
      let r := processTokens (next :: rest2)
      ((s.content ++ ['-']) :: r.1, wcValue s.wc :: r.2)
    else if s.subs_type = lchars "HypPart1" && next.subs_type = lchars "HypPart2" then
      if mergeGuard s next then
        let r := processTokens rest2
        (s.subs_content :: r.1, wcValue s.wc :: r.2)
      else
        let r := processTokens (next :: rest2)
        (s.content :: r.1, wcValue s.wc :: r.2)
    else
      let r := processTokens (next :: rest2)
      (s.content :: r.1, wcValue s.wc :: r.2)

/-- `process_text_block`: the words joined with single spaces, together with
the confidence list (an empty block yields `("", [])`, as does the loop). -/
def process_text_block (block_strings : List AltoString) : Str × List Rat :=
  let r := processTokens block_strings
  (List.intercalate [' '] r.1, r.2)

/-! ### mets2codes_inner, content pass (source lines 164-201)

The XML traversal is abstracted: a `ContentDiv` is one descendant `mets:div`
of an article (the xpath `.//mets:div[not(@TYPE='HEADING')]` universe plus
the headings it filters away), carrying its `TYPE`, `ORDER` attribute and
the `BEGIN` attributes of its direct `mets:area` children, all in document
order. -/

/-- The `ORDER` attribute of a div: absent (`div.get("ORDER", "999")`
defaults the string), present and parsed by `int`, or present but failing
the `int` parse (`except ValueError: order_val = 999`). -/
inductive OrderAttr where
  | absent
  | okv (n : Int)
  | bad
  deriving DecidableEq

/-- The sequence value the source computes for a div. -/
def orderValue : OrderAttr → Int
  | OrderAttr.absent => 999
  | OrderAttr.okv n => n
  | OrderAttr.bad => 999

/-- One article-descendant div, as the content pass reads it. -/
structure ContentDiv where
  divType : Str
  order : OrderAttr
  areas : List (Option Str)
  deriving DecidableEq

/-- `exclude_content_types = {"ILLUSTRATION", "IMAGE", "CAPTION"}`. -/
def exclude_content_types : List Str :=
  [lchars "ILLUSTRATION", lchars "IMAGE", lchars "CAPTION"]

/-- Contributions of one div to `all_content_divs`: skipped for headings
(the xpath excludes them), for an empty `TYPE`, and for excluded types;
otherwise each direct area with a truthy `BEGIN` contributes
`(block_id, order_val)` in document order. -/
def divContribs (d : ContentDiv) : List (Str × Int) :=
  if d.divType = lchars "HEADING" then []
  else if d.divType.isEmpty then []
  else if d.divType ∈ exclude_content_types then []
  else d.areas.filterMap (fun a =>
    match a with
    | some b => if b.isEmpty then none else some (b, orderValue d.order)
    | none => none)

/-- `all_content_divs` for an article, before sorting. -/
def content_contributions (divs : List ContentDiv) : List (Str × Int) :=
  (divs.map divContribs).flatten

/-- `all_content_divs.sort(key=lambda x: x[2])`: Python's sort is stable, so
it is embedded as an insertion sort that keeps earlier elements first among
equal keys. -/
def sortContribs (l : List (Str × Int)) : List (Str × Int) :=
  List.insertionSort (fun a b => a.2 ≤ b.2) l

/-- The `for idx, (div, block_id, _) in enumerate(all_content_divs)` loop:
walk the sorted contributions with their enumeration index, appending each
not-yet-seen block id to `text_block_ids` and recording
`order_map[block_id] = idx`.  `seen` carries the ids already emitted. -/
def dedupIdx : List (Str × Int) → Nat → List Str → List Str × List (Str × Nat)
  | [], _, _ => ([], [])
  | (b, _) :: t, idx, seen =>
    if b ∈ seen then dedupIdx t (idx + 1) seen
    else
      let r := dedupIdx t (idx + 1) (b :: seen)
      (b :: r.1, (b, idx) :: r.2)

/-- The content pass of `mets2codes_inner` for one article: the ordered
de-duplicated `text_block_ids` and the `order_map` (as an association list
in insertion order, matching Python dict iteration order). -/
def mets_content_ids (divs : List ContentDiv) : List Str × List (Str × Nat) :=
  dedupIdx (sortContribs (content_contributions divs)) 0 []

/-! ### process_block geometry (source lines 462-494)

The four geometry reads of a block element (and, identically, of each line
element) sit in one `try` block; `int(float(elem.get(X, "0")))` parses the
attribute as a float and truncates. -/

/-- A geometry attribute: absent (defaults to the string `"0"`), present
with a float value, or present but failing the float parse
(raising `ValueError`). -/
inductive GeoAttr where
  | absent
  | num (q : Rat)
  | malformed
  deriving DecidableEq

/-- `float(elem.get(X, "0"))`: `none` models the raised `ValueError`. -/
def geoFloat : GeoAttr → Option Rat
  | GeoAttr.absent => some 0
  | GeoAttr.num q => some q
  | GeoAttr.malformed => none

/-- Python `int(float)`: truncation toward zero (the rational is in lowest
terms, so truncating division of numerator by denominator). -/
def truncQ (q : Rat) : Int :=
  q.num.tdiv (Int.ofNat q.den)

/-- The shared `try/except ValueError` around the four geometry coercions of
one element: the first failure raises, and the handler zeroes all four
fields (`block_hpos = block_vpos = block_width = block_height = 0`). -/
def elem_geometry (hpos vpos width height : GeoAttr) : Int × Int × Int × Int :=
  match geoFloat hpos, geoFloat vpos, geoFloat width, geoFloat height with
  | some a, some b, some c, some d => (truncQ a, truncQ b, truncQ c, truncQ d)
  | _, _, _, _ => (0, 0, 0, 0)

/-- The geometry step never aborts block resolution: once the block element
is located, `process_block` returns a result whatever the geometry
attributes hold (the coercion failure is caught in-function). -/
def process_block_outcome (block_found : Bool)
    (hpos vpos width height : GeoAttr) : Option (Int × Int × Int × Int) :=
  if block_found then some (elem_geometry hpos vpos width height) else none

/-! ### Article assembly (source lines 497-687)

`process_block`'s XML lookup is abstracted into a resolver
`Str → Option BlockRes` (`none` embeds every `return None` path: bad id
pattern, missing page, unknown block kind, block not found); a `BlockRes`
carries the per-block arrays of the dictionary `process_block` returns. -/

/-- The per-block data of a resolved block. -/
structure BlockRes where
  texts : List Str
  confidences : List Rat
  line_widths : List Int
  line_heights : List Int
  line_hpos : List Int
  line_vpos : List Int
  block_hpos : List Int
  block_vpos : List Int
  block_widths : List Int
  block_heights : List Int
  ids : List Str
  deriving DecidableEq

/-- The empty accumulator the assembly loops start from. -/
def emptyRes : BlockRes := ⟨[], [], [], [], [], [], [], [], [], [], []⟩

/-- The `for key, value in block_data.items(): data[key].extend(value)`
accumulation. -/
def appendRes (a b : BlockRes) : BlockRes :=
  ⟨a.texts ++ b.texts, a.confidences ++ b.confidences,
   a.line_widths ++ b.line_widths, a.line_heights ++ b.line_heights,
   a.line_hpos ++ b.line_hpos, a.line_vpos ++ b.line_vpos,
   a.block_hpos ++ b.block_hpos, a.block_vpos ++ b.block_vpos,
   a.block_widths ++ b.block_widths, a.block_heights ++ b.block_heights,
   a.ids ++ b.ids⟩

/-- `process_title_blocks` (source lines 545-580): resolve each title block
id in order, extending the accumulator with each resolved block's data. -/
def process_title_blocks (title_block_ids : List Str)
    (resolve : Str → Option BlockRes) : BlockRes :=
  (title_block_ids.filterMap resolve).foldl appendRes emptyRes

/-- `order_map.get(block_id, 999) if order_map else 999` (an empty map also
yields the default for every id). -/
def lookupPos (om : List (Str × Nat)) (b : Str) : Nat :=
  ((om.find? (fun p => p.1 = b)).map Prod.snd).getD 999

/-- Content data: the accumulated block arrays plus
`block_order_positions` (one position per contributed text entry). -/
structure ContentData where
  res : BlockRes
  positions : List Nat
  deriving DecidableEq

/-- `process_content_blocks` (source lines 584-641): resolve each id,
attach its order position, sort stably by position, then extend the
accumulator in that order. -/
def process_content_blocks (text_block_ids : List Str)
    (resolve : Str → Option BlockRes) (om : List (Str × Nat)) : ContentData :=
  let blocks := text_block_ids.filterMap (fun b =>
    (resolve b).map (fun d => (b, d, lookupPos om b)))
  let sorted := List.insertionSort (fun x y => x.2.2 ≤ y.2.2) blocks
  sorted.foldl (fun acc x =>
    ⟨appendRes acc.res x.2.1,
     acc.positions ++ List.replicate x.2.1.texts.length x.2.2⟩)
    ⟨emptyRes, []⟩

/-- The output record of `combine_article_data` (source lines 644-687),
with the tuple components named. -/
structure ArticleRecord where
  mets_title : Str
  title_text : Str
  text : Str
  title_line_widths : List Int
  title_line_heights : List Int
  title_line_hpos : List Int
  title_line_vpos : List Int
  title_block_hpos : List Int
  title_block_vpos : List Int
  title_block_widths : List Int
  title_block_heights : List Int
  title_confidences : List Rat
  title_block_ids : List Str
  line_widths : List Int
  line_heights : List Int
  line_hpos : List Int
  line_vpos : List Int
  block_hpos : List Int
  block_vpos : List Int
  block_widths : List Int
  block_heights : List Int
  word_confidences : List Rat
  block_ids : List Str
  non_text_elements : List Str
  deriving DecidableEq

/-- `combine_article_data`: titles fall back to the METS title when no title
block contributed text; both texts pass through `clean_text`. -/
def combine_article_data (mets_title : Str) (title_data : BlockRes)
    (content_data : ContentData) (non_text_elements : List Str) : ArticleRecord :=
  let title_text := if title_data.texts.isEmpty then mets_title
    else List.intercalate [' '] title_data.texts
  let full_text := List.intercalate [' '] content_data.res.texts
  { mets_title := mets_title
    title_text := clean_text_str title_text
    text := clean_text_str full_text
    title_line_widths := title_data.line_widths
    title_line_heights := title_data.line_heights
    title_line_hpos := title_data.line_hpos
    title_line_vpos := title_data.line_vpos
    title_block_hpos := title_data.block_hpos
    title_block_vpos := title_data.block_vpos
    title_block_widths := title_data.block_widths
    title_block_heights := title_data.block_heights
    title_confidences := title_data.confidences
    title_block_ids := title_data.ids
    line_widths := content_data.res.line_widths
    line_heights := content_data.res.line_heights
    line_hpos := content_data.res.line_hpos
    line_vpos := content_data.res.line_vpos
    block_hpos := content_data.res.block_hpos
    block_vpos := content_data.res.block_vpos
    block_widths := content_data.res.block_widths
    block_heights := content_data.res.block_heights
    word_confidences := content_data.res.confidences
    block_ids := content_data.res.ids
    non_text_elements := non_text_elements }

/-- The per-article value of the `mets2codes_inner` mapping,
`(article_title, title_block_ids, text_block_ids, non_text_elements, order_map)`. -/
structure ArticleData where
  mets_title : Str
  title_block_ids : List Str
  text_block_ids : List Str
  non_text_elements : List Str
  order_map : List (Str × Nat)
  deriving DecidableEq

/-- `extract_text_from_alto` (source lines 497-542): articles iterate in
dict order; an article whose title and content id lists are both empty is
skipped and counted, every other article produces a record.  Returns the
output mapping (as an ordered association list) and `skipped_articles`. -/
def extract_text_from_alto :
    List (Str × ArticleData) → (Str → Option BlockRes) → List (Str × ArticleRecord) × Nat
  | [], _ => ([], 0)
  | (aid, d) :: t, resolve =>
    let r := extract_text_from_alto t resolve
    if d.title_block_ids.isEmpty && d.text_block_ids.isEmpty then
      (r.1, r.2 + 1)
    else
      ((aid, combine_article_data d.mets_title
        (process_title_blocks d.title_block_ids resolve)
        (process_content_blocks d.text_block_ids resolve d.order_map)
        d.non_text_elements) :: r.1, r.2)

/-! ### process_issue (source lines 718-841)

Archive traversal and persistence are external; the core decision ladder is
embedded over the outcomes of its collaborators: whether a METS member and
page files were found, the parsed article codes, the number of parsed
pages, and the block resolver.  `pd.DataFrame.from_dict` and `to_parquet`
succeed on the (possibly empty) extracted mapping.  The returned tuple is
`(success, len(df), len(page_files), skipped_articles)`; the issue code
component is dropped. -/

/-- The issue pipeline of `process_issue`. -/
def process_issue (mets_found : Bool) (num_page_files : Nat)
    (article_codes : List (Str × ArticleData)) (num_parsed_pages : Nat)
    (resolve : Str → Option BlockRes) : Bool × Nat × Nat × Nat :=
  if !mets_found then (false, 0, 0, 0)
  else if num_page_files = 0 then (false, 0, 0, 0)
  else if article_codes.length = 0 then (false, 0, 0, 0)
  else if num_parsed_pages = 0 then (false, 0, 0, 0)
  else
    let r := extract_text_from_alto article_codes resolve
    (true, r.1.length, num_page_files, article_codes.length - r.1.length)

/-! ### Observation helpers for hyphen runs -/

/-- Run-length encoding, auxiliary: the current character and its count. -/
def rleAux : Char → Nat → Str → List (Char × Nat)
  | c, n, [] => [(c, n)]
  | c, n, d :: t => if d = c then rleAux c (n + 1) t else (c, n) :: rleAux d 1 t

/-- Run-length encoding of a string (maximal runs with their lengths). -/
def rle : Str → List (Char × Nat)
  | [] => []
  | c :: t => rleAux c 1 t

/-- Does the string contain a maximal run of exactly `k` hyphens? -/
def hasHyphenRunExactly (k : Nat) (s : Str) : Bool :=
  (rle s).any (fun p => p.1 = '-' && p.2 = k)

/-- Scan of run triples for a hyphen run of length `k` whose neighbouring
runs are word characters. -/
def borderedAux (k : Nat) : List (Char × Nat) → Bool
  | x :: y :: z :: t =>
    (isWordChar x.1 && y.1 = '-' && y.2 = k && isWordChar z.1) ||
      borderedAux k (y :: z :: t)
  | _ => false

/-- Does the string contain a run of exactly `k` hyphens surrounded by word
characters? -/
def hasWordBorderedHyphenRun (k : Nat) (s : Str) : Bool :=
  borderedAux k (rle s)

/-! ### Helper lemmas -/

/-- A string starting with a hyphen is nonempty. -/
theorem startsWithHyphen_nonempty {s : Str} (h : startsWithHyphen s = true) :
    s.isEmpty = false := by
  cases s with
  | nil => simp [startsWithHyphen] at h
  | cons c t => simp [List.isEmpty]

/-- A bare multi-hyphen run (in the `^-{2,}$` sense) starts with a hyphen. -/
theorem hyphens2_startsWith {s : Str} (h : pyMatchHyphens2 s = true) :
    startsWithHyphen s = true := by
  unfold pyMatchHyphens2 at h
  rw [Bool.and_eq_true, decide_eq_true_eq] at h
  obtain ⟨hlen, hall⟩ := h
  cases s with
  | nil => simp [dollarStrip] at hlen
  | cons a s' =>
    unfold dollarStrip at hlen hall
    by_cases hnl : (a :: s').getLast? = some nlC
    · rw [if_pos hnl] at hlen hall
      cases s' with
      | nil => simp [List.dropLast] at hlen
      | cons b s'' =>
        have hdl : (a :: b :: s'').dropLast = a :: (b :: s'').dropLast := rfl
        rw [hdl, List.all_cons, Bool.and_eq_true] at hall
        simpa [startsWithHyphen] using hall.1
    · rw [if_neg hnl] at hall
      rw [List.all_cons, Bool.and_eq_true] at hall
      simpa [startsWithHyphen] using hall.1

/-- A bare number (in the `^\d+'?$` sense) is not a bare multi-hyphen run. -/
theorem bareNum_not_hyphens2 {s : Str} (h : pyMatchBareNum s = true) :
    pyMatchHyphens2 s = false := by
  unfold pyMatchBareNum at h
  rw [Bool.and_eq_true, Bool.not_eq_true'] at h
  obtain ⟨hdig, _⟩ := h
  unfold pyMatchHyphens2
  cases hstrip : dollarStrip s with
  | nil => rw [hstrip] at hdig; simp [List.takeWhile] at hdig
  | cons c0 t' =>
    rw [hstrip] at hdig
    by_cases hd : c0.isDigit
    · have hne : (c0 = '-') = False := by
        refine eq_false ?_
        intro he
        rw [he] at hd
        exact absurd hd (by decide)
      simp [List.all_cons, hne]
    · rw [List.takeWhile] at hdig
      simp only [hd] at hdig
      simp at hdig

/-- If the following token's content does not start with a hyphen, the
numeric-tabular lookahead test fails. -/
theorem case2Next_false {t : AltoString} (h : startsWithHyphen t.content = false) :
    case2Next t = false := by
  unfold case2Next
  rw [h]
  simp

/-- A token caught by case 1 is emitted verbatim and processing continues
with the remaining tokens. -/
theorem processTokens_case1 (t : AltoString) (l : List AltoString)
    (h : isCase1 t = true) :
    processTokens (t :: l)
      = (t.content :: (processTokens l).1, wcValue t.wc :: (processTokens l).2) := by
  cases l with
  | nil => simp [processTokens]
  | cons b bt => simp [processTokens, h]

/-- Every branch of the token loop emits one word together with one
confidence value, so the two output lists always have equal length. -/
theorem processTokens_length : ∀ l : List AltoString,
    (processTokens l).1.length = (processTokens l).2.length
  | [] => rfl
  | [_] => rfl
  | s :: next :: rest2 => by
    have ih1 := processTokens_length (next :: rest2)
    have ih2 := processTokens_length rest2
    simp only [processTokens]
    repeat' split
    all_goals simp [ih1, ih2]

/-- The skip test of `extract_text_from_alto` as a Boolean predicate:
`len(title_block_ids) == 0 and len(text_block_ids) == 0`. -/
def noBlockRefs (d : ArticleData) : Bool :=
  d.title_block_ids.isEmpty && d.text_block_ids.isEmpty

/-- The produced article ids are exactly those whose reference lists are not
both empty, in input order. -/
theorem extract_keys_filter (arts : List (Str × ArticleData))
    (resolve : Str → Option BlockRes) :
    (extract_text_from_alto arts resolve).1.map Prod.fst
      = (arts.filter (fun p => !noBlockRefs p.2)).map Prod.fst := by
  induction arts with
  | nil => rfl
  | cons a t ih =>
    obtain ⟨aid, d⟩ := a
    by_cases h : noBlockRefs d = true
    · have h' : (d.title_block_ids.isEmpty && d.text_block_ids.isEmpty) = true := h
      simp [extract_text_from_alto, List.filter_cons, h, h', ih]
    · have hb : noBlockRefs d = false := by simpa using h
      have h' : (d.title_block_ids.isEmpty && d.text_block_ids.isEmpty) = false := hb
      simp [extract_text_from_alto, List.filter_cons, hb, h', ih]

/-- The skipped count of `extract_text_from_alto` is the number of articles
whose reference lists are both empty. -/
theorem extract_skipped_filter (arts : List (Str × ArticleData))
    (resolve : Str → Option BlockRes) :
    (extract_text_from_alto arts resolve).2
      = (arts.filter (fun p => noBlockRefs p.2)).length := by
  induction arts with
  | nil => rfl
  | cons a t ih =>
    obtain ⟨aid, d⟩ := a
    by_cases h : noBlockRefs d = true
    · have h' : (d.title_block_ids.isEmpty && d.text_block_ids.isEmpty) = true := h
      simp [extract_text_from_alto, List.filter_cons, h, h', ih]
    · have hb : noBlockRefs d = false := by simpa using h
      have h' : (d.title_block_ids.isEmpty && d.text_block_ids.isEmpty) = false := hb
      simp [extract_text_from_alto, List.filter_cons, hb, h', ih]

/-- Invariants of the enumeration walk `dedupIdx`: the order-map keys are the
de-duplicated ids in order, the recorded positions are strictly increasing
and at least the starting index, the ids are distinct, and no emitted id was
already seen. -/
theorem dedupIdx_spec : ∀ (l : List (Str × Int)) (idx : Nat) (seen : List Str),
    ((dedupIdx l idx seen).2.map Prod.fst = (dedupIdx l idx seen).1) ∧
    List.Chain' (· < ·) ((dedupIdx l idx seen).2.map Prod.snd) ∧
    (∀ q ∈ (dedupIdx l idx seen).2.map Prod.snd, idx ≤ q) ∧
    (dedupIdx l idx seen).1.Nodup ∧
    (∀ b ∈ (dedupIdx l idx seen).1, b ∉ seen)
  | [], _, _ => by simp [dedupIdx]
  | (b, o) :: t, idx, seen => by
    by_cases h : b ∈ seen
    · have ih := dedupIdx_spec t (idx + 1) seen
      simp only [dedupIdx, if_pos h]
      obtain ⟨ih1, ih2, ih3, ih4, ih5⟩ := ih
      exact ⟨ih1, ih2, fun q hq => le_trans (Nat.le_succ idx) (ih3 q hq), ih4, ih5⟩
    · have ih := dedupIdx_spec t (idx + 1) (b :: seen)
      simp only [dedupIdx, if_neg h]
      obtain ⟨ih1, ih2, ih3, ih4, ih5⟩ := ih
      refine ⟨by simpa using ih1, ?_, ?_, ?_, ?_⟩
      · rw [List.map_cons, List.chain'_cons']
        refine ⟨fun q hq => ?_, ih2⟩
        have hmem : q ∈ (dedupIdx t (idx + 1) (b :: seen)).2.map Prod.snd :=
          List.mem_of_mem_head? hq
        exact lt_of_lt_of_le (Nat.lt_succ_self idx) (ih3 q hmem)
      · intro q hq
        rw [List.map_cons, List.mem_cons] at hq
        rcases hq with hq | hq
        · simp [hq]
        · exact le_trans (Nat.le_succ idx) (ih3 q hq)
      · rw [List.nodup_cons]
        exact ⟨fun hmem => (ih5 b hmem) (List.mem_cons_self b seen), ih4⟩
      · intro x hx
        rw [List.mem_cons] at hx
        rcases hx with hx | hx
        · subst hx; exact h
        · exact fun hxs => (ih5 x hx) (List.mem_cons_of_mem b hxs)

/-! ### Claim theorems -/

/-- Claim C1, counterexample: a HypPart1 token whose literal content is
itself a bare multi-hyphen run (here `"--"`, with nonempty substituted
content `"ab"` free of double hyphens) followed by a HypPart2 token with
content `"x"` satisfies every merge guard of the claim, yet no merge
happens: the bare-multi-hyphen rule fires first and both tokens are emitted
separately, refuting the claimed "if and only if". -/
theorem claim_C1_counterexample :
    mergeGuard ⟨lchars "--", lchars "HypPart1", lchars "ab", WcAttr.ok 1⟩
        ⟨lchars "x", lchars "HypPart2", [], WcAttr.ok 1⟩ = true ∧
    (processTokens [⟨lchars "--", lchars "HypPart1", lchars "ab", WcAttr.ok 1⟩,
        ⟨lchars "x", lchars "HypPart2", [], WcAttr.ok 1⟩]).1
      = [lchars "--", lchars "x"] ∧
    [lchars "--", lchars "x"] ≠ [lchars "ab"] := by
  decide

/-- Claim C1 (amended): provided the two earlier rules do not intercept the
pair — the first token's content is not a bare multi-hyphen run, and the
pair does not trigger the numeric-tabular rule (bare-number first content
with hyphen-leading second content) — a HypPart1 token immediately followed
by a HypPart2 token is merged into the single word `SUBS_CONTENT` exactly
when the substituted content is nonempty, contains no run of two or more
hyphens, and the second token's content is not a bare multi-hyphen run; the
merge emits one word with the first token's confidence and consumes the
second token, while a failed guard emits the first token's literal content
and reprocesses the second token independently. -/
theorem claim_C1 (t1 t2 : AltoString) (rest : List AltoString)
    (h1 : t1.subs_type = lchars "HypPart1") (h2 : t2.subs_type = lchars "HypPart2")
    (h3 : isCase1 t1 = false)
    (h4 : ¬(pyMatchBareNum t1.content = true ∧ startsWithHyphen t2.content = true)) :
    (mergeGuard t1 t2 = true →
      processTokens (t1 :: t2 :: rest)
        = (t1.subs_content :: (processTokens rest).1,
           wcValue t1.wc :: (processTokens rest).2)) ∧
    (mergeGuard t1 t2 = false →
      processTokens (t1 :: t2 :: rest)
        = (t1.content :: (processTokens (t2 :: rest)).1,
           wcValue t1.wc :: (processTokens (t2 :: rest)).2)) := by
  by_cases hb : pyMatchBareNum t1.content = true
  · have hsw : startsWithHyphen t2.content = false := by
      by_cases hs : startsWithHyphen t2.content = true
      · exact absurd ⟨hb, hs⟩ h4
      · simpa using hs
    have hcn : case2Next t2 = false := case2Next_false hsw
    constructor
    · intro hg
      simp [processTokens, h3, hb, hcn, h1, h2, hg]
    · intro hg
      simp [processTokens, h3, hb, hcn, h1, h2, hg]
  · have hb' : pyMatchBareNum t1.content = false := by simpa using hb
    constructor
    · intro hg
      simp [processTokens, h3, hb', h1, h2, hg]
    · intro hg
      simp [processTokens, h3, hb', h1, h2, hg]

/-- Claim C1, witness: the canonical `com-`/`puter` pair merges to
`computer` with the first token's confidence. -/
theorem claim_C1_witness :
    processTokens [⟨lchars "com-", lchars "HypPart1", lchars "computer", WcAttr.ok 1⟩,
        ⟨lchars "puter", lchars "HypPart2", lchars "computer", WcAttr.ok 2⟩]
      = ([lchars "computer"], [1]) := by
  have h := (claim_C1
    ⟨lchars "com-", lchars "HypPart1", lchars "computer", WcAttr.ok 1⟩
    ⟨lchars "puter", lchars "HypPart2", lchars "computer", WcAttr.ok 2⟩ []
    rfl rfl (by decide) (by decide)).1 (by decide)
  rw [h]
  decide

/-- Claim C2, counterexample: a bare-number HypPart1 token followed by a
token whose content `"-abc"` starts with a hyphen but is neither hyphen-only
nor tagged HypPart2 still triggers the numeric-tabular rule (the source
matches `^-+` unanchored at the end), emitting `5-`; the claim says the rule
does not fire here. -/
theorem claim_C2_counterexample :
    (lchars "-abc").all (fun c => c = '-') = false ∧
    ([] : Str) ≠ lchars "HypPart2" ∧
    (processTokens [⟨lchars "5", lchars "HypPart1", [], WcAttr.ok 1⟩,
        ⟨lchars "-abc", [], [], WcAttr.ok 1⟩]).1
      = [lchars "5-", lchars "-abc"] ∧
    [lchars "5-", lchars "-abc"] ≠ [lchars "5", lchars "-abc"] := by
  decide

/-- Claim C2 (amended): a bare-number (optionally apostrophe-trailed)
HypPart1 token fires the numeric-tabular rule precisely when the following
token's content starts with a hyphen (hyphen-only content and
hyphen-leading HypPart2 content are special cases; the HypPart2 disjunct of
the source condition is redundant): the number is emitted with a single
trailing hyphen and the following token is not consumed.  When the
following content does not start with a hyphen and the following token is
not HypPart2-tagged, the number is emitted as-is and the following token is
processed independently. -/
theorem claim_C2 (t1 t2 : AltoString) (rest : List AltoString)
    (hn : pyMatchBareNum t1.content = true)
    (h1 : t1.subs_type = lchars "HypPart1") :
    (startsWithHyphen t2.content = true →
      processTokens (t1 :: t2 :: rest)
        = ((t1.content ++ ['-']) :: (processTokens (t2 :: rest)).1,
           wcValue t1.wc :: (processTokens (t2 :: rest)).2)) ∧
    (startsWithHyphen t2.content = false → t2.subs_type ≠ lchars "HypPart2" →
      processTokens (t1 :: t2 :: rest)
        = (t1.content :: (processTokens (t2 :: rest)).1,
           wcValue t1.wc :: (processTokens (t2 :: rest)).2)) := by
  have hcase1 : isCase1 t1 = false := by
    unfold isCase1
    rw [bareNum_not_hyphens2 hn]
    simp
  constructor
  · intro hsw
    have hne : t2.content.isEmpty = false := startsWithHyphen_nonempty hsw
    have hc2 : case2Next t2 = true := by
      unfold case2Next
      rw [hne, hsw]
      simp
    simp [processTokens, hcase1, hn, h1, hc2]
  · intro hsw hns
    have hc2 : case2Next t2 = false := case2Next_false hsw
    have hns' : decide (t2.subs_type = lchars "HypPart2") = false := by simpa using hns
    simp [processTokens, hcase1, hc2, hns']

/-- Claim C2, witness: `7'` (HypPart1) followed by a lone hyphen emits
`7'-` and leaves the hyphen token to be processed on its own. -/
theorem claim_C2_witness :
    processTokens [⟨lchars "7'", lchars "HypPart1", [], WcAttr.ok 1⟩,
        ⟨lchars "-", [], [], WcAttr.ok 2⟩]
      = ([lchars "7'-", lchars "-"], [1, 2]) := by
  have h := (claim_C2 ⟨lchars "7'", lchars "HypPart1", [], WcAttr.ok 1⟩
    ⟨lchars "-", [], [], WcAttr.ok 2⟩ [] (by decide) rfl).1 (by decide)
  rw [h]
  decide

/-- Claim C10: the numeric-tabular rule advances by one token only, so after
emitting the number with its trailing hyphen the multi-hyphen token is
processed independently and emitted verbatim by the bare-multi-hyphen rule —
both words appear, each with its own confidence — and in general the token
loop emits exactly one confidence per emitted word, so the word and
confidence counts always agree. -/
theorem claim_C10 :
    (∀ l : List AltoString, (processTokens l).1.length = (processTokens l).2.length) ∧
    (∀ (t1 t2 : AltoString) (rest : List AltoString),
      pyMatchBareNum t1.content = true → t1.subs_type = lchars "HypPart1" →
      isCase1 t2 = true →
      processTokens (t1 :: t2 :: rest)
        = ((t1.content ++ ['-']) :: t2.content :: (processTokens rest).1,
           wcValue t1.wc :: wcValue t2.wc :: (processTokens rest).2)) := by
  refine ⟨processTokens_length, ?_⟩
  intro t1 t2 rest hn h1 hm
  have hcase1 : isCase1 t1 = false := by
    unfold isCase1
    rw [bareNum_not_hyphens2 hn]
    simp
  have hm' := hm
  unfold isCase1 at hm'
  rw [Bool.and_eq_true] at hm'
  have hsw : startsWithHyphen t2.content = true := hyphens2_startsWith hm'.2
  have hne : t2.content.isEmpty = false := by simpa using hm'.1
  have hc2 : case2Next t2 = true := by
    unfold case2Next
    rw [hne, hsw]
    simp
  have step1 : processTokens (t1 :: t2 :: rest)
      = ((t1.content ++ ['-']) :: (processTokens (t2 :: rest)).1,
         wcValue t1.wc :: (processTokens (t2 :: rest)).2) := by
    simp [processTokens, hcase1, hn, h1, hc2]
  rw [step1, processTokens_case1 t2 rest hm]

/-- Claim C10, witness: `12` (HypPart1) followed by `--` emits both `12-`
and `--`, with one confidence each. -/
theorem claim_C10_witness :
    (processTokens [⟨lchars "w", [], [], WcAttr.ok 1⟩]).1.length
      = (processTokens [⟨lchars "w", [], [], WcAttr.ok 1⟩]).2.length ∧
    processTokens [⟨lchars "12", lchars "HypPart1", [], WcAttr.ok 1⟩,
        ⟨lchars "--", [], [], WcAttr.bad⟩]
      = ([lchars "12-", lchars "--"], [1, 0]) := by
  refine ⟨claim_C10.1 _, ?_⟩
  have h := claim_C10.2 ⟨lchars "12", lchars "HypPart1", [], WcAttr.ok 1⟩
    ⟨lchars "--", [], [], WcAttr.bad⟩ [] (by decide) rfl (by decide)
  rw [h]
  decide

/-- Claim C3: the normalizer is claimed idempotent for every input, but the
code is not: on the input `1 __NUMHYPH__` the literal placeholder sentinel
is rewritten to `1 -` by the restore step, and a second application then
glues the number to the hyphen, yielding `1--`.  This evaluates the code at
the failing input. -/
theorem claim_C3_failing_input :
    clean_text (PyVal.pstr (lchars "1 __NUMHYPH__")) = lchars "1 -" ∧
    clean_text (PyVal.pstr (lchars "1 -")) = lchars "1--" ∧
    clean_text (PyVal.pstr (clean_text (PyVal.pstr (lchars "1 __NUMHYPH__"))))
      ≠ clean_text (PyVal.pstr (lchars "1 __NUMHYPH__")) := by
  decide

/-- Claim C9: `clean_text` is claimed to preserve hyphen-run length, but on
`x__HYPHEN_5--y` — which contains a run of exactly two hyphens surrounded by
the word characters `5` and `y` — the restore scan consumes the literal
`__HYPHEN_5` of the input together with the leading `__` of the protected
run's placeholder and expands it to five hyphens, so no run of exactly two
hyphens survives.  This evaluates the code at the failing input. -/
theorem claim_C9_failing_input :
    hasWordBorderedHyphenRun 2 (lchars "x__HYPHEN_5--y") = true ∧
    clean_text (PyVal.pstr (lchars "x__HYPHEN_5--y")) = lchars "x-----HYPHEN_2__y" ∧
    hasHyphenRunExactly 2 (clean_text (PyVal.pstr (lchars "x__HYPHEN_5--y"))) = false := by
  decide

/-- Claim C7, counterexample: `clean_text(5)` returns `"5"`, not the empty
string — the code converts only `None` to `""` and any other non-string via
`str`. -/
theorem claim_C7_counterexample :
    clean_text (PyVal.pint 5) = lchars "5" ∧ clean_text (PyVal.pint 5) ≠ [] := by
  decide

/-- The decimal printer never returns the empty string. -/
theorem natDigitsAux_ne_nil (f n : Nat) : natDigitsAux (f + 1) n ≠ [] := by
  unfold natDigitsAux
  split
  · simp
  · simp

/-- Python `str` of an integer is never the empty string. -/
theorem pyIntStr_ne_nil : ∀ n : Int, pyIntStr n ≠ []
  | Int.ofNat m => by
    unfold pyIntStr natRepr
    exact natDigitsAux_ne_nil m m
  | Int.negSucc m => by simp [pyIntStr]

/-- Claim C7 (amended): `clean_text` converts `None` to the empty string and
every other non-string input to its `str` representation — which for an
integer is its (never empty) decimal form; strings run the normalization
pipeline. -/
theorem claim_C7 :
    clean_text PyVal.pnone = [] ∧
    (∀ n : Int, clean_text (PyVal.pint n) = pyIntStr n ∧ clean_text (PyVal.pint n) ≠ []) ∧
    (∀ s : Str, clean_text (PyVal.pstr s) = clean_text_str s) :=
  ⟨rfl, fun n => ⟨rfl, pyIntStr_ne_nil n⟩, fun _ => rfl⟩

/-- Claim C4, counterexample: with duplicate area pointers (ids `a, a, b`,
all with default sequence number), the order map records the enumeration
index of each id's first occurrence in the sorted contribution list —
`a ↦ 0, b ↦ 2` — not the consecutive positions `0, 1` the claim states. -/
theorem claim_C4_counterexample :
    mets_content_ids [⟨lchars "TEXT", OrderAttr.absent,
        [some (lchars "a"), some (lchars "a"), some (lchars "b")]⟩]
      = ([lchars "a", lchars "b"], [(lchars "a", 0), (lchars "b", 2)]) ∧
    [(lchars "a", (0 : Nat)), (lchars "b", 2)] ≠ [(lchars "a", 0), (lchars "b", 1)] := by
  decide

/-- Claim C4 (amended): content contributions are sorted stably by declared
sequence number (default 999, ties in traversal order) and de-duplicated
first-seen — for sequence numbers `[3,1,1,2]` over distinct ids `a,b,c,d`
the content order is `b,c,d,a` with positions `0,1,2,3` — and in general the
order map lists exactly the surviving ids, without duplicates, with
strictly increasing positions (the first-occurrence indices in the sorted
contribution list, which need not be consecutive when duplicates occur). -/
theorem claim_C4 :
    (mets_content_ids
        [⟨lchars "TEXT", OrderAttr.okv 3, [some (lchars "a")]⟩,
         ⟨lchars "TEXT", OrderAttr.okv 1, [some (lchars "b")]⟩,
         ⟨lchars "TEXT", OrderAttr.okv 1, [some (lchars "c")]⟩,
         ⟨lchars "TEXT", OrderAttr.okv 2, [some (lchars "d")]⟩]
      = ([lchars "b", lchars "c", lchars "d", lchars "a"],
         [(lchars "b", 0), (lchars "c", 1), (lchars "d", 2), (lchars "a", 3)])) ∧
    (∀ divs : List ContentDiv,
      ((mets_content_ids divs).2.map Prod.fst = (mets_content_ids divs).1) ∧
      (mets_content_ids divs).1.Nodup ∧
      List.Chain' (fun a b => a < b) ((mets_content_ids divs).2.map Prod.snd)) := by
  refine ⟨by decide, fun divs => ?_⟩
  obtain ⟨h1, h2, _, h4, _⟩ :=
    dedupIdx_spec (sortContribs (content_contributions divs)) 0 []
  exact ⟨h1, h4, h2⟩

/-- Claim C5, counterexample: an article whose single content reference
resolves to nothing (the resolver returns `none` for every id) still
produces an `ArticleRecord` and is not counted as skipped — the code only
tests whether the reference lists are empty, not whether any reference
resolves. -/
theorem claim_C5_counterexample :
    ((extract_text_from_alto
        [(lchars "A1", ⟨lchars "T", [], [lchars "bogus"], [], []⟩)]
        (fun _ => none)).1.map Prod.fst = [lchars "A1"]) ∧
    (extract_text_from_alto
        [(lchars "A1", ⟨lchars "T", [], [lchars "bogus"], [], []⟩)]
        (fun _ => none)).2 = 0 := by
  exact ⟨rfl, rfl⟩

/-- Claim C5 (amended): an `ArticleRecord` is produced for an article
exactly when its title and content reference lists are not both empty —
resolvability plays no role — and the skipped count is the number of
articles with both lists empty. -/
theorem claim_C5 (arts : List (Str × ArticleData)) (resolve : Str → Option BlockRes) :
    ((extract_text_from_alto arts resolve).1.map Prod.fst
      = (arts.filter (fun p => !noBlockRefs p.2)).map Prod.fst) ∧
    ((extract_text_from_alto arts resolve).2
      = (arts.filter (fun p => noBlockRefs p.2)).length) :=
  ⟨extract_keys_filter arts resolve, extract_skipped_filter arts resolve⟩

/-- Claim C6, counterexample: an issue with a valid structural document
whose single article has empty reference lists (so every article is
skipped) still returns a `true` success flag with zero articles. -/
theorem claim_C6_counterexample :
    process_issue true 1 [(lchars "A1", ⟨lchars "T", [], [], [], []⟩)] 1 (fun _ => none)
      = (true, 0, 1, 1) ∧
    (true : Bool) ≠ false := by
  exact ⟨rfl, by decide⟩

/-- Claim C6 (amended): articles with empty title and content reference
lists are excluded from the output and counted as skipped, but an issue in
which every article is skipped still reports success: with a found METS
member, at least one page file, a nonempty article mapping and at least one
parsed page, `process_issue` returns a `true` flag, zero extracted articles,
and a skipped count equal to the article total (failure is reported only
for a missing METS member, no page files, an empty article mapping, or zero
parsed pages). -/
theorem claim_C6 (arts : List (Str × ArticleData)) (resolve : Str → Option BlockRes)
    (npf npp : Nat) (h1 : arts ≠ []) (h2 : ∀ p ∈ arts, noBlockRefs p.2 = true)
    (h3 : npf ≠ 0) (h4 : npp ≠ 0) :
    process_issue true npf arts npp resolve = (true, 0, npf, arts.length) := by
  have hfilter : arts.filter (fun p => !noBlockRefs p.2) = [] := by
    rw [List.filter_eq_nil_iff]
    intro p hp
    simp [h2 p hp]
  have hmap : (extract_text_from_alto arts resolve).1.map Prod.fst = [] := by
    rw [extract_keys_filter arts resolve, hfilter]
    rfl
  have hlen0 : (extract_text_from_alto arts resolve).1.length = 0 := by
    have := congrArg List.length hmap
    simpa using this
  have hne : arts.length ≠ 0 := by
    simpa using h1
  unfold process_issue
  rw [if_neg (by simp), if_neg h3, if_neg hne, if_neg h4]
  simp [hlen0]

/-- Claim C6, witness: two articles, both with empty reference lists, one
page file and one parsed page — the issue reports success with zero
articles and two skipped. -/
theorem claim_C6_witness :
    process_issue true 2
      [(lchars "A1", ⟨lchars "T", [], [], [], []⟩),
       (lchars "A2", ⟨lchars "U", [], [], [], []⟩)] 1 (fun _ => none)
      = (true, 0, 2, 2) :=
  claim_C6
    [(lchars "A1", ⟨lchars "T", [], [], [], []⟩),
     (lchars "A2", ⟨lchars "U", [], [], [], []⟩)]
    (fun _ => none) 2 1 (by decide) (by decide) (by decide) (by decide)

/-- Claim C8, counterexample: the four geometry coercions share one
`try/except`, so an unparsable `HPOS` zeroes every field of the element —
the parsable `VPOS` value `5` does not keep its parsed value. -/
theorem claim_C8_counterexample :
    elem_geometry GeoAttr.malformed (GeoAttr.num 5) (GeoAttr.num 7) (GeoAttr.num 2)
      = (0, 0, 0, 0) ∧
    geoFloat (GeoAttr.num 5) = some 5 ∧ truncQ 5 = 5 ∧ (0 : Int) ≠ 5 := by
  decide

/-- Claim C8 (amended): a geometry coercion failure is an element-level soft
failure: if any of the four attributes of a block or line element fails the
float parse, all four fields of that element default to zero; if all four
parse, each field keeps its float-parsed, integer-truncated value; and
block resolution always completes regardless. -/
theorem claim_C8 (hpA vpA wA htA : GeoAttr) :
    ((geoFloat hpA = none ∨ geoFloat vpA = none ∨ geoFloat wA = none ∨ geoFloat htA = none) →
      elem_geometry hpA vpA wA htA = (0, 0, 0, 0)) ∧
    (∀ a b c d : Rat, geoFloat hpA = some a → geoFloat vpA = some b →
      geoFloat wA = some c → geoFloat htA = some d →
      elem_geometry hpA vpA wA htA = (truncQ a, truncQ b, truncQ c, truncQ d)) ∧
    (process_block_outcome true hpA vpA wA htA).isSome = true := by
  refine ⟨?_, ?_, by simp [process_block_outcome]⟩
  · intro hnone
    cases hpA <;> cases vpA <;> cases wA <;> cases htA <;>
      simp_all [elem_geometry, geoFloat]
  · intro a b c d ha hb hc hd
    cases hpA <;> cases vpA <;> cases wA <;> cases htA <;>
      simp_all [elem_geometry, geoFloat]

/-- Claim C8, witness: a malformed `WIDTH` zeroes the whole element; with
all four parsable, `3.5` truncates to `3` and `-2.5` to `-2`. -/
theorem claim_C8_witness :
    elem_geometry (GeoAttr.num (mkRat 7 2)) GeoAttr.malformed (GeoAttr.num 1) GeoAttr.absent
      = (0, 0, 0, 0) ∧
    elem_geometry (GeoAttr.num (mkRat 7 2)) (GeoAttr.num (mkRat (-5) 2)) GeoAttr.absent (GeoAttr.num 4)
      = (3, -2, 0, 4) := by
  constructor
  · exact (claim_C8 (GeoAttr.num (mkRat 7 2)) GeoAttr.malformed (GeoAttr.num 1) GeoAttr.absent).1
      (Or.inr (Or.inl rfl))
  · have h := (claim_C8 (GeoAttr.num (mkRat 7 2)) (GeoAttr.num (mkRat (-5) 2)) GeoAttr.absent
      (GeoAttr.num 4)).2.1 (mkRat 7 2) (mkRat (-5) 2) 0 4 rfl rfl rfl rfl
    rw [h]
    decide

end PapersPast
